import Mathlib

/-!
Verification of the core engine of the dungeonsAnddragons repository
(`app/core/dice.py`, `app/core/character.py`, `app/core/encounter.py`,
`app/core/session.py`) against its natural-language specification.

Python integers are modelled as `Int` (with `Int.fdiv` for Python's
floor-dividing `//`), Python lists as `List`, dictionaries returned by the
mutating methods as explicit report structures, and the process-global
random source as an explicit stream of values passed to the functions that
draw from it.  Strings are modelled as Lean `String`/`List Char`; the
Python string primitives used by the code (`strip`, `lower`,
`replace(" ", "")`) are modelled on the ASCII fragment that the dice
grammar can accept.
-/

/-! ### Python string primitives (`dice.py` line 120) -/

/-- The whitespace characters stripped by Python's `str.strip()`. -/
def pyIsSpace (c : Char) : Bool :=
  c = ' ' || c = '\t' || c = '\n' || c = '\r' || c = '\x0b' || c = '\x0c'

/-- `str.strip()`: drop leading and trailing whitespace. -/
def pyStrip (cs : List Char) : List Char :=
  ((cs.dropWhile pyIsSpace).reverse.dropWhile pyIsSpace).reverse

/-- `str.lower()` on the ASCII letters (the only case-folding the dice
grammar can observe). -/
def pyLowerChar (c : Char) : Char :=
  if 'A' ≤ c ∧ c ≤ 'Z' then Char.ofNat (c.toNat + 32) else c

/-- `str.lower()` lifted to strings. -/
def pyLower (s : String) : String :=
  String.mk (s.data.map pyLowerChar)

/-- `dice_string.strip().lower().replace(" ", "")` from
`DiceRoller.parse_and_roll`. -/
def normalizeDice (s : String) : List Char :=
  ((pyStrip s.data).map pyLowerChar).filter (fun c => c ≠ ' ')

/-! ### DiceRoller (`app/core/dice.py`) -/

/-- The result dictionary built by `DiceRoller.roll`. -/
structure RollResult where
  rolls : List Nat
  modifier : Int
  total : Int
  description : String
  sides : Nat
  count : Nat
deriving DecidableEq

/-- The two `ValueError` raise sites in `dice.py`: the positivity check in
`DiceRoller.roll` and the format check in `DiceRoller.parse_and_roll`
(which embeds the offending — already normalized — string). -/
inductive DiceError where
  | invalidDice : DiceError
  | invalidFormat : String → DiceError
deriving DecidableEq

/-- `DiceRoller.roll(sides, count, modifier)`.  The values produced by
`random.randint(1, sides)` are supplied by `stream`. -/
def DiceRoller.roll (sides count : Nat) (modifier : Int) (stream : Nat → Nat) :
    Except DiceError RollResult :=
  if sides < 1 ∨ count < 1 then .error DiceError.invalidDice
  else
    let rolls := (List.range count).map stream
    let desc := toString count ++ "d" ++ toString sides ++
      (if 0 < modifier then "+" ++ toString modifier
       else if modifier < 0 then toString modifier else "")
    .ok { rolls := rolls, modifier := modifier,
          total := (rolls.sum : Int) + modifier,
          description := desc, sides := sides, count := count }

/-- `int()` on a list of decimal digit characters. -/
def digitsToNat (cs : List Char) : Nat :=
  cs.foldl (fun n c => 10 * n + (c.toNat - 48)) 0

/-- The matcher for the regular expression `^(\d+)d(\d+)([+-]\d+)?$` used by
`DiceRoller.parse_and_roll`, returning `(count, sides, modifier)` on a
match. -/
def parseDice (cs : List Char) : Option (Nat × Nat × Int) :=
  let a := cs.takeWhile Char.isDigit
  let r1 := cs.dropWhile Char.isDigit
  if a.isEmpty then none
  else
    match r1 with
    | [] => none
    | c0 :: r2 =>
      if c0 = 'd' then
        let b := r2.takeWhile Char.isDigit
        let r3 := r2.dropWhile Char.isDigit
        if b.isEmpty then none
        else
          match r3 with
          | [] => some (digitsToNat a, digitsToNat b, 0)
          | c :: r4 =>
            if c = '+' ∨ c = '-' then
              let m := r4.takeWhile Char.isDigit
              let r5 := r4.dropWhile Char.isDigit
              if m.isEmpty ∨ ¬ r5.isEmpty then none
              else some (digitsToNat a, digitsToNat b,
                if c = '-' then -(digitsToNat m : Int) else (digitsToNat m : Int))
            else none
      else none

/-- `DiceRoller.parse_and_roll(dice_string)`: normalize, match the dice
grammar, then roll; a non-match raises `ValueError` carrying the
normalized string. -/
def DiceRoller.parse_and_roll (s : String) (stream : Nat → Nat) :
    Except DiceError RollResult :=
  let n := normalizeDice s
  match parseDice n with
  | none => .error (DiceError.invalidFormat (String.mk n))
  | some (count, sides, m) => DiceRoller.roll sides count m stream

/-- A non-empty run of decimal digits. -/
def IsDigits (l : List Char) : Prop :=
  l ≠ [] ∧ ∀ c ∈ l, c.isDigit = true

/-- Declarative form of the language of `^(\d+)d(\d+)([+-]\d+)?$`. -/
def MatchesDiceGrammar (cs : List Char) : Prop :=
  ∃ a b : List Char, IsDigits a ∧ IsDigits b ∧
    (cs = a ++ 'd' :: b ∨
      ∃ (c : Char) (m : List Char), (c = '+' ∨ c = '-') ∧ IsDigits m ∧
        cs = a ++ 'd' :: b ++ c :: m)

/-! ### Character (`app/core/character.py`) -/

/-- The `Character` dataclass.  Default field values are the dataclass
defaults; `Character.post_init` below is `__post_init__`, which the
dataclass machinery runs on every construction. -/
structure Character where
  name : String
  character_class : String
  level : Int := 1
  experience : Int := 0
  strength : Int := 10
  dexterity : Int := 10
  constitution : Int := 10
  intelligence : Int := 10
  wisdom : Int := 10
  charisma : Int := 10
  health : Int := 10
  max_health : Int := 10
  armor_class : Int := 10
  inventory : List String := ["Basic weapon", "Starting armor", "Adventurer\x27s pack"]
  gold : Int := 100
  conditions : List String := []
  temporary_hp : Int := 0
deriving DecidableEq

/-- `(score - 10) // 2` with Python floor division. -/
def abilityModifier (score : Int) : Int := (score - 10).fdiv 2

/-- `Character.get_modifier` (raises `ValueError` on an unknown ability
name). -/
def Character.get_modifier (c : Character) (ability : String) : Except String Int :=
  let a := pyLower ability
  if a = "strength" then .ok (abilityModifier c.strength)
  else if a = "dexterity" then .ok (abilityModifier c.dexterity)
  else if a = "constitution" then .ok (abilityModifier c.constitution)
  else if a = "intelligence" then .ok (abilityModifier c.intelligence)
  else if a = "wisdom" then .ok (abilityModifier c.wisdom)
  else if a = "charisma" then .ok (abilityModifier c.charisma)
  else .error ("Unknown ability: " ++ a)

/-- `self.get_modifier("constitution")`, which never raises. -/
def conModifier (c : Character) : Int := abilityModifier c.constitution

/-- The per-class hit-die table of `Character._calculate_starting_hp`
(default 8 for unknown classes). -/
def hit_die (cls : String) : Int :=
  if cls = "fighter" then 10
  else if cls = "paladin" then 10
  else if cls = "ranger" then 10
  else if cls = "barbarian" then 12
  else if cls = "rogue" then 8
  else if cls = "monk" then 8
  else if cls = "bard" then 8
  else if cls = "cleric" then 8
  else if cls = "druid" then 8
  else if cls = "warlock" then 8
  else if cls = "wizard" then 6
  else if cls = "sorcerer" then 6
  else 8

/-- `Character._calculate_starting_hp`. -/
def Character.calculate_starting_hp (c : Character) : Int :=
  max 1 (hit_die (pyLower c.character_class) + conModifier c)

/-- `Character.__post_init__`: recompute max health/health while max
health is at its sentinel default 10, and armor class while it is at its
sentinel default 10. -/
def Character.post_init (c : Character) : Character :=
  let c1 :=
    if c.max_health = 10 then
      { c with max_health := c.calculate_starting_hp,
               health := c.calculate_starting_hp }
    else c
  if c1.armor_class = 10 then
    { c1 with armor_class := 10 + abilityModifier c1.dexterity }
  else c1

/-- The dictionary returned by `Character.take_damage`. -/
structure DamageReport where
  damage_taken : Int
  temp_hp_lost : Int
  health_lost : Int
  current_health : Int
  unconscious : Bool
deriving DecidableEq

/-- `Character.take_damage(damage)`. -/
def Character.take_damage (c : Character) (damage : Int) :
    Character × DamageReport :=
  let temp_damage := min damage c.temporary_hp
  let remaining_damage := damage - temp_damage
  let actual_damage := min remaining_damage c.health
  let h := c.health - actual_damage
  ({ c with temporary_hp := c.temporary_hp - temp_damage, health := h },
   { damage_taken := damage, temp_hp_lost := temp_damage,
     health_lost := actual_damage, current_health := h,
     unconscious := h ≤ 0 })

/-- The dictionary returned by `Character.heal`. -/
structure HealReport where
  healing_attempted : Int
  healing_applied : Int
  current_health : Int
  fully_healed : Bool
deriving DecidableEq

/-- `Character.heal(healing)`. -/
def Character.heal (c : Character) (healing : Int) : Character × HealReport :=
  let h := min c.max_health (c.health + healing)
  ({ c with health := h },
   { healing_attempted := healing, healing_applied := h - c.health,
     current_health := h, fully_healed := c.max_health ≤ h })

/-- `Character._level_up(old_level, new_level)`. -/
def Character.level_up (c : Character) (old_level new_level : Int) : Character :=
  let hp_gain := (new_level - old_level) * (5 + conModifier c)
  { c with max_health := c.max_health + max 1 hp_gain,
           health := c.health + hp_gain }

/-- `Character.gain_experience(xp)`. -/
def Character.gain_experience (c : Character) (xp : Int) : Character :=
  let e := c.experience + xp
  let new_level := 1 + e.fdiv 1000
  if c.level < new_level then
    Character.level_up { c with experience := e, level := new_level }
      c.level new_level
  else { c with experience := e }

/-- `Character.to_dict` (`dataclasses.asdict`: the record of all fields). -/
def Character.to_dict (c : Character) : Character := c

/-- `Character.from_dict`: `cls(**data)` re-runs `__post_init__`. -/
def Character.from_dict (d : Character) : Character := d.post_init

/-! ### Combatant and Encounter (`app/core/encounter.py`) -/

/-- The `CombatantType` enum. -/
inductive CombatantType where
  | player | npc | enemy
deriving DecidableEq

/-- The `Combatant` dataclass. -/
structure Combatant where
  name : String
  combatant_type : CombatantType
  health : Int
  max_health : Int
  armor_class : Int
  initiative : Int := 0
  character : Option Character := none
  is_conscious : Bool := true
  conditions : List String := []
deriving DecidableEq

/-- The dictionary returned by `Combatant.take_damage`. -/
structure CombatantDamageReport where
  damage_taken : Int
  current_health : Int
  unconscious : Bool
deriving DecidableEq

/-- `Combatant.take_damage(damage)`. -/
def Combatant.take_damage (c : Combatant) (damage : Int) :
    Combatant × CombatantDamageReport :=
  let actual_damage := min damage c.health
  let h := c.health - actual_damage
  let c1 := { c with health := h }
  let c2 :=
    if h ≤ 0 then
      { c1 with
        is_conscious := false,
        conditions :=
          if "unconscious" ∈ c1.conditions then c1.conditions
          else c1.conditions ++ ["unconscious"] }
    else c1
  (c2, { damage_taken := actual_damage, current_health := h,
         unconscious := !c2.is_conscious })

/-- `Combatant.heal(healing)` (the returned pair is the result
dictionary: healing applied and current health). -/
def Combatant.heal (c : Combatant) (healing : Int) : Combatant × (Int × Int) :=
  let h := min c.max_health (c.health + healing)
  let c1 := { c with health := h }
  let c2 :=
    if 0 < h ∧ c1.is_conscious = false then
      { c1 with
        is_conscious := true,
        conditions :=
          if "unconscious" ∈ c1.conditions then c1.conditions.erase "unconscious"
          else c1.conditions }
    else c1
  (c2, (h - c.health, h))

/-- The `Encounter` class state. -/
structure Encounter where
  name : String
  combatants : List Combatant := []
  turn_order : List Combatant := []
  current_turn_index : Nat := 0
  round_number : Int := 0
  is_active : Bool := false
  combat_log : List String := []
deriving DecidableEq

/-- `Encounter.log_action`. -/
def Encounter.log_action (e : Encounter) (action : String) : Encounter :=
  { e with combat_log :=
      e.combat_log ++ ["[Round " ++ toString e.round_number ++ "] " ++ action] }

/-- The comparison underlying the Python call
`sorted(self.combatants, key=lambda c: c.initiative, reverse=True)`:
`a` may stay before `b` exactly when `b.initiative ≤ a.initiative`.
Python's sort is stable, so the call is modelled as a stable merge sort
under this comparison. -/
def initDesc (a b : Combatant) : Bool := b.initiative ≤ a.initiative

/-- The roster with the rolled initiative values written into the
combatants, in registration order (the mutation loop of
`Encounter.roll_initiative`). -/
def assignInitiative (cs : List Combatant) (rolls : List Int) : List Combatant :=
  List.zipWith (fun c r => { c with initiative := r }) cs rolls

/-- `Encounter.roll_initiative`: the d20 results are supplied by `rolls`,
one per combatant. -/
def Encounter.roll_initiative (e : Encounter) (rolls : List Int) : Encounter :=
  let cs := assignInitiative e.combatants rolls
  let e1 := cs.foldl
    (fun acc c =>
      acc.log_action (c.name ++ " rolled " ++ toString c.initiative ++ " for initiative"))
    { e with combatants := cs }
  let e2 := { e1 with turn_order := cs.mergeSort initDesc, current_turn_index := 0 }
  e2.log_action ("Initiative order: " ++
    String.intercalate ", "
      (e2.turn_order.map (fun c => c.name ++ " (" ++ toString c.initiative ++ ")")))

/-- The state built by `Encounter.start_combat` after its roster
emptiness check passed. -/
def Encounter.start_combat_ok (e : Encounter) (rolls : List Int) : Encounter :=
  let e1 := e.roll_initiative rolls
  let e2 := { e1 with is_active := true, round_number := 1 }
  e2.log_action ("Combat started: " ++ e2.name)

/-- `Encounter.start_combat` (raises `ValueError` on an empty roster). -/
def Encounter.start_combat (e : Encounter) (rolls : List Int) :
    Except String Encounter :=
  if e.combatants.isEmpty then .error "Cannot start combat without combatants"
  else .ok (e.start_combat_ok rolls)

/-- `Encounter.should_end_combat`. -/
def Encounter.should_end_combat (e : Encounter) : Bool :=
  (e.combatants.filter
    (fun c => c.combatant_type = CombatantType.player ∧ c.is_conscious)).length = 0
  || (e.combatants.filter
    (fun c => c.combatant_type = CombatantType.enemy ∧ c.is_conscious)).length = 0

/-- The end-of-combat sync of `Encounter.end_combat`: a combatant holding
a Character back-reference copies its final health and conditions onto
that Character. -/
def Combatant.sync_character (c : Combatant) : Combatant :=
  match c.character with
  | some ch => { c with character := some { ch with health := c.health, conditions := c.conditions } }
  | none => c

/-- `Encounter.end_combat`. -/
def Encounter.end_combat (e : Encounter) : Encounter :=
  let e1 := { e with is_active := false }
  let players : Nat := (e1.combatants.filter
    (fun c => c.combatant_type = CombatantType.player ∧ c.is_conscious)).length
  let enemies : Nat := (e1.combatants.filter
    (fun c => c.combatant_type = CombatantType.enemy ∧ c.is_conscious)).length
  let e2 :=
    if 0 < players ∧ enemies = 0 then
      e1.log_action "Victory! All enemies have been defeated!"
    else if players = 0 then
      e1.log_action "Defeat! All players have fallen unconscious!"
    else e1.log_action "Combat ended!"
  { e2 with combatants := e2.combatants.map Combatant.sync_character }

/-- `Encounter.next_turn`. -/
def Encounter.next_turn (e : Encounter) : Encounter :=
  if e.is_active = false then e
  else
    let i := e.current_turn_index + 1
    if e.turn_order.length ≤ i then
      let e1 := { e with current_turn_index := 0, round_number := e.round_number + 1 }
      let e2 := e1.log_action ("Round " ++ toString e1.round_number ++ " begins")
      let e3 := { e2 with turn_order := e2.turn_order.filter (fun c => c.is_conscious) }
      if e3.should_end_combat then e3.end_combat else e3
    else { e with current_turn_index := i }

/-! ### GameSession (`app/core/session.py`) -/

/-- The `StoryEvent` dataclass; the open `metadata` dictionary is
modelled as an association list. -/
structure StoryEvent where
  timestamp : String
  event_type : String
  content : String
  metadata : List (String × String)
deriving DecidableEq

/-- The in-memory state of a `GameSession`. -/
structure GameSession where
  session_id : String
  story_history : List StoryEvent := []
  current_location : String := "Starting Village"
  active_npcs : List String := []
  current_scene : String := ""
  session_notes : List String := []
  created_at : String
  last_saved : Option String := none
  turn_count : Int := 0
  in_combat : Bool := false
  current_encounter : Option String := none
deriving DecidableEq

/-- `GameSession.__init__(session_id)`; `created_at` is the
`datetime.now()` timestamp. -/
def GameSession.init (session_id created_at : String) : GameSession :=
  { session_id := session_id, created_at := created_at }

/-- Python's `l[-last_n:]` slice as used by `GameSession.get_context`. -/
def pyTail {α : Type} (l : List α) (n : Int) : List α :=
  if 0 < n then l.drop (l.length - n.toNat)
  else if n = 0 then l
  else l.drop (-n).toNat

/-- The `if`/`elif` chain rendering one story event inside
`GameSession.get_context`; event types outside the four known kinds
produce no line. -/
def renderLine (e : StoryEvent) : Option String :=
  if e.event_type = "dm_response" then some ("DM: " ++ e.content)
  else if e.event_type = "player_action" then some ("Player: " ++ e.content)
  else if e.event_type = "dice_roll" then some ("Roll: " ++ e.content)
  else if e.event_type = "system" then some ("System: " ++ e.content)
  else none

/-- `GameSession.get_context(last_n)`. -/
def GameSession.get_context (s : GameSession) (last_n : Int) : String :=
  if s.story_history.isEmpty then ""
  else
    let recent := pyTail s.story_history last_n
    let header :=
      (if s.current_location ≠ "" then
        ["Current Location: " ++ s.current_location] else [])
      ++ (if s.current_scene ≠ "" then
        ["Current Scene: " ++ s.current_scene] else [])
      ++ (if s.active_npcs ≠ [] then
        ["Active NPCs: " ++ String.intercalate ", " s.active_npcs] else [])
      ++ (if s.in_combat then ["Status: Currently in combat"] else [])
    String.intercalate "\n" (header ++ [""] ++ recent.filterMap renderLine)

/-- The dictionary written by `GameSession.save_session` (the JSON file,
modelled as an in-memory record). -/
structure SessionData where
  session_id : String
  created_at : String
  last_saved : String
  turn_count : Int
  current_location : String
  active_npcs : List String
  current_scene : String
  session_notes : List String
  in_combat : Bool
  current_encounter : Option String
  story_history : List StoryEvent
deriving DecidableEq

/-- `GameSession.save_session`; `now` is the `datetime.now()` timestamp
recorded as `last_saved`.  Returns the stored record together with the
updated session. -/
def GameSession.save_session (s : GameSession) (now : String) :
    SessionData × GameSession :=
  let data : SessionData :=
    { session_id := s.session_id, created_at := s.created_at,
      last_saved := now, turn_count := s.turn_count,
      current_location := s.current_location, active_npcs := s.active_npcs,
      current_scene := s.current_scene, session_notes := s.session_notes,
      in_combat := s.in_combat, current_encounter := s.current_encounter,
      story_history := s.story_history }
  (data, { s with last_saved := some now })

/-- `GameSession.load_session` on a present, well-formed record: every
field is hydrated from the record, and the story history is rebuilt
event by event in stored order. -/
def GameSession.load_session (s : GameSession) (d : SessionData) : GameSession :=
  { s with created_at := d.created_at, last_saved := some d.last_saved,
           turn_count := d.turn_count, current_location := d.current_location,
           active_npcs := d.active_npcs, current_scene := d.current_scene,
           session_notes := d.session_notes, in_combat := d.in_combat,
           current_encounter := d.current_encounter,
           story_history := d.story_history.map
             (fun ev => { timestamp := ev.timestamp, event_type := ev.event_type,
                          content := ev.content, metadata := ev.metadata }) }

/-! ### Invariants and spec-side descriptions -/

/-- The consciousness/condition invariant of the claim on
`Combatant.take_damage`/`Combatant.heal`: the flag mirrors positive
health and the
"unconscious" condition mirrors non-positive health. -/
def CombatantInv (c : Combatant) : Prop :=
  (c.is_conscious = true ↔ 0 < c.health) ∧
  ("unconscious" ∈ c.conditions ↔ c.health ≤ 0)

/-- The strengthening of `CombatantInv` that the code actually preserves:
additionally the "unconscious" condition occurs at most once (Python's
`list.remove` deletes a single occurrence) and health is within the
`max_health` bound. -/
def CombatantInvFull (c : Combatant) : Prop :=
  CombatantInv c ∧ c.conditions.count "unconscious" ≤ 1 ∧
  c.health ≤ c.max_health ∧ 0 ≤ c.max_health

instance (c : Combatant) : Decidable (CombatantInv c) := by
  unfold CombatantInv
  infer_instance

instance (c : Combatant) : Decidable (CombatantInvFull c) := by
  unfold CombatantInvFull
  infer_instance

/-- A combatant stripped of its Character back-reference (the roster
entries modulo the one-time end-of-combat sync into the referenced
Character records). -/
def stripCharacter (c : Combatant) : Combatant := { c with character := none }

/-- Spec side: the role label derived from an event kind. -/
def roleLabel (kind : String) : Option String :=
  if kind = "dm_response" then some "DM"
  else if kind = "player_action" then some "Player"
  else if kind = "dice_roll" then some "Roll"
  else if kind = "system" then some "System"
  else none

/-- Spec side: one story event rendered as a RoleLabel-prefixed line. -/
def renderEventSpec (e : StoryEvent) : Option String :=
  (roleLabel e.event_type).map (fun lab => lab ++ ": " ++ e.content)

/-- Spec side: the header block of the context transcript. -/
def headerLines (s : GameSession) : List String :=
  (if s.current_location ≠ "" then
    ["Current Location: " ++ s.current_location] else [])
  ++ (if s.current_scene ≠ "" then
    ["Current Scene: " ++ s.current_scene] else [])
  ++ (if s.active_npcs ≠ [] then
    ["Active NPCs: " ++ String.intercalate ", " s.active_npcs] else [])
  ++ (if s.in_combat then ["Status: Currently in combat"] else [])

/-- The last `n` elements of a list. -/
def takeLast {α : Type} (n : Nat) (l : List α) : List α :=
  l.drop (l.length - n)

/-! ### Concrete states used by witnesses and counterexamples -/

/-- A fighter with two temporary hit points (post-construction). -/
def charTempHp : Character :=
  Character.post_init { name := "w", character_class := "fighter", temporary_hp := 2 }

/-- A raw character record at zero health (within the health invariant). -/
def charZeroHp : Character := { name := "b", character_class := "fighter", health := 0 }

/-- A raw character record with a negative constitution score at zero
health. -/
def charNegCon : Character :=
  { name := "b2", character_class := "fighter", health := 0, constitution := -2 }

/-- A wizard with constitution score 1 (constitution modifier -5). -/
def charLowCon : Character :=
  Character.post_init { name := "Mellic", character_class := "wizard", constitution := 1 }

/-- A default fighter (post-construction). -/
def charFighter : Character :=
  Character.post_init { name := "Bruno", character_class := "Fighter" }

/-- The fighter after three damage: health 7, max health 10. -/
def charDamaged : Character := (charFighter.take_damage 3).1

/-- A conscious player combatant. -/
def combA : Combatant :=
  { name := "A", combatant_type := .player, health := 5, max_health := 10, armor_class := 12 }

/-- An unconscious enemy combatant. -/
def combB : Combatant :=
  { name := "B", combatant_type := .enemy, health := 0, max_health := 7,
    armor_class := 13, is_conscious := false, conditions := ["unconscious"] }

/-- A mid-round encounter at turn index 0 with roster `[combA, combB]`. -/
def encTwo : Encounter :=
  { name := "Skirmish", combatants := [combA, combB], turn_order := [combA, combB],
    current_turn_index := 0, round_number := 1, is_active := true }

/-- Player and two identical enemies, for the initiative-sort witness. -/
def combP : Combatant :=
  { name := "P", combatant_type := .player, health := 10, max_health := 10, armor_class := 15 }

/-- First enemy registered. -/
def combE1 : Combatant :=
  { name := "E1", combatant_type := .enemy, health := 7, max_health := 7, armor_class := 12 }

/-- Second enemy registered. -/
def combE2 : Combatant :=
  { name := "E2", combatant_type := .enemy, health := 7, max_health := 7, armor_class := 12 }

/-- An idle encounter with three registered combatants. -/
def encThree : Encounter :=
  { name := "Brawl", combatants := [combP, combE1, combE2] }

/-- An unconscious combatant carrying a duplicated "unconscious"
condition: it satisfies `CombatantInv` but healing breaks the
invariant. -/
def combDup : Combatant :=
  { name := "Z", combatant_type := .enemy, health := 0, max_health := 10,
    armor_class := 10, is_conscious := false,
    conditions := ["unconscious", "unconscious"] }

/-- A healthy combatant within all bounds. -/
def combW : Combatant :=
  { name := "W", combatant_type := .enemy, health := 3, max_health := 10, armor_class := 10 }

/-- A DM story event. -/
def evDm : StoryEvent :=
  { timestamp := "t1", event_type := "dm_response", content := "hello", metadata := [] }

/-- A player story event. -/
def evPlayer : StoryEvent :=
  { timestamp := "t2", event_type := "player_action", content := "hi", metadata := [] }

/-- A two-event session (defaults elsewhere). -/
def sessTwo : GameSession :=
  { session_id := "s", created_at := "t0", story_history := [evDm, evPlayer],
    turn_count := 2 }

/-- A session with a full header: scene, NPCs and combat flag set. -/
def sessFull : GameSession :=
  { session_id := "s2", created_at := "t0", story_history := [evDm, evPlayer],
    current_scene := "cave", active_npcs := ["Mira", "Tob"], in_combat := true,
    turn_count := 2 }

/-- A constant random stream. -/
def stream4 : Nat → Nat := fun _ => 4

/-! ### Theorems -/

/-- The dispatch of `Character.get_modifier` on the literal name used by
the hit-point computations. -/
theorem get_modifier_constitution (c : Character) :
    c.get_modifier "constitution" = .ok (conModifier c) := rfl

/-- C1: for every Character and every damage amount ≥ 0 (with the state
within its documented bounds), `take_damage` never drives health below 0,
temporary hit points absorb the damage first, and
`temp_hp_lost + health_lost = min(amount, temporary_hp + health)`. -/
theorem take_damage_spec (c : Character) (amount : Int)
    (hamt : 0 ≤ amount) (htmp : 0 ≤ c.temporary_hp) (hhp : 0 ≤ c.health) :
    0 ≤ (c.take_damage amount).1.health ∧
    (c.take_damage amount).2.temp_hp_lost = min amount c.temporary_hp ∧
    (c.take_damage amount).2.temp_hp_lost + (c.take_damage amount).2.health_lost
      = min amount (c.temporary_hp + c.health) := by
  simp only [Character.take_damage]
  refine ⟨?_, trivial, ?_⟩ <;> omega

/-- C1 witness: the fighter with 2 temporary hit points taking 5 damage. -/
theorem take_damage_spec_witness :
    ((0:Int) ≤ 5 ∧ 0 ≤ charTempHp.temporary_hp ∧ 0 ≤ charTempHp.health) ∧
    (0 ≤ (charTempHp.take_damage 5).1.health ∧
      (charTempHp.take_damage 5).2.temp_hp_lost = min 5 charTempHp.temporary_hp ∧
      (charTempHp.take_damage 5).2.temp_hp_lost + (charTempHp.take_damage 5).2.health_lost
        = min 5 (charTempHp.temporary_hp + charTempHp.health)) :=
  ⟨by decide, take_damage_spec charTempHp 5 (by decide) (by decide) (by decide)⟩

/-- C8 counterexample: two states within `0 ≤ health ≤ max_health` that a
mutating operation drives out of it — `heal` with a negative amount, and
`gain_experience` on a character whose constitution score is negative
(constitution modifier ≤ -6, so the level-up health delta is
negative). -/
theorem mutating_ops_cex :
    (0 ≤ charZeroHp.health ∧ charZeroHp.health ≤ charZeroHp.max_health ∧
      (charZeroHp.heal (-1)).1.health < 0) ∧
    (0 ≤ charNegCon.health ∧ charNegCon.health ≤ charNegCon.max_health ∧
      (charNegCon.gain_experience 1000).health < 0) := by decide

/-- C8 amended: `take_damage` (any amount), `heal` (non-negative amount)
and `gain_experience` (non-negative XP, non-negative constitution score)
all preserve `0 ≤ health ≤ max_health`. -/
theorem mutating_ops_preserve_health_inv (c : Character) (d h xp : Int)
    (hh0 : 0 ≤ c.health) (hhm : c.health ≤ c.max_health)
    (hheal : 0 ≤ h) (hxp : 0 ≤ xp) (hcon : 0 ≤ c.constitution) :
    (0 ≤ (c.take_damage d).1.health ∧
      (c.take_damage d).1.health ≤ (c.take_damage d).1.max_health) ∧
    (0 ≤ (c.heal h).1.health ∧ (c.heal h).1.health ≤ (c.heal h).1.max_health) ∧
    (0 ≤ (c.gain_experience xp).health ∧
      (c.gain_experience xp).health ≤ (c.gain_experience xp).max_health) := by
  have hfd : ∀ a : Int, a.fdiv 2 = a / 2 := fun a => Int.fdiv_eq_ediv a (by omega)
  refine ⟨?_, ?_, ?_⟩
  · simp only [Character.take_damage]
    constructor <;> omega
  · simp only [Character.heal]
    constructor <;> omega
  · have hmod : -5 ≤ conModifier c := by
      simp only [conModifier, abilityModifier, hfd]
      omega
    simp only [Character.gain_experience]
    split
    · rename_i hlt
      simp only [Character.level_up, conModifier, abilityModifier] at *
      set g := (1 + (c.experience + xp).fdiv 1000 - c.level) *
        (5 + (c.constitution - 10).fdiv 2) with hgdef
      have hg : 0 ≤ g := by
        refine mul_nonneg ?_ ?_ <;> omega
      constructor
      · omega
      · have := le_max_right (1 : Int) g
        omega
    · exact ⟨hh0, hhm⟩

/-- C8 amended witness: the damaged fighter under damage 4, healing 2 and
1000 XP. -/
theorem mutating_ops_preserve_health_inv_witness :
    (0 ≤ charDamaged.health ∧ charDamaged.health ≤ charDamaged.max_health ∧
      (0:Int) ≤ 2 ∧ (0:Int) ≤ 1000 ∧ 0 ≤ charDamaged.constitution) ∧
    ((0 ≤ (charDamaged.take_damage 4).1.health ∧
      (charDamaged.take_damage 4).1.health ≤ (charDamaged.take_damage 4).1.max_health) ∧
    (0 ≤ (charDamaged.heal 2).1.health ∧
      (charDamaged.heal 2).1.health ≤ (charDamaged.heal 2).1.max_health) ∧
    (0 ≤ (charDamaged.gain_experience 1000).health ∧
      (charDamaged.gain_experience 1000).health ≤ (charDamaged.gain_experience 1000).max_health)) :=
  ⟨by decide,
   mutating_ops_preserve_health_inv charDamaged 4 2 1000
     (by decide) (by decide) (by decide) (by decide) (by decide)⟩

/-- C4 counterexample: the wizard with constitution score 1 (modifier -5)
levels from 1 to 2 on 1000 XP; max health rises by `max(1, 5 + (-5)) = 1`
as the claim states, but the character is healed by the unclamped
`5 + (-5) = 0`, not by that same amount. -/
theorem gain_experience_cex :
    conModifier charLowCon = -5 ∧ charLowCon.health = 1 ∧
    (charLowCon.gain_experience 1000).level = 2 ∧
    (charLowCon.gain_experience 1000).max_health
      = charLowCon.max_health + max 1 (5 + conModifier charLowCon) ∧
    (charLowCon.gain_experience 1000).health
      ≠ charLowCon.health + max 1 (5 + conModifier charLowCon) := by decide

/-- C4 amended: for a level-consistent character gaining `xp ≥ 0`,
`gain_experience` recomputes `level = 1 + floor(experience / 1000)`; when
levels are gained, max health rises by
`max(1, levels_gained * (5 + constitution modifier))` and health by the
unclamped `levels_gained * (5 + constitution modifier)` (the two agree
whenever the constitution modifier is at least -4). -/
theorem gain_experience_spec (c : Character) (xp : Int) (hxp : 0 ≤ xp)
    (hlvl : c.level = 1 + c.experience.fdiv 1000) :
    (c.gain_experience xp).experience = c.experience + xp ∧
    (c.gain_experience xp).level = 1 + (c.experience + xp).fdiv 1000 ∧
    (c.gain_experience xp).max_health =
      (if c.level < 1 + (c.experience + xp).fdiv 1000 then
        c.max_health +
          max 1 ((1 + (c.experience + xp).fdiv 1000 - c.level) * (5 + conModifier c))
      else c.max_health) ∧
    (c.gain_experience xp).health =
      (if c.level < 1 + (c.experience + xp).fdiv 1000 then
        c.health + (1 + (c.experience + xp).fdiv 1000 - c.level) * (5 + conModifier c)
      else c.health) := by
  have hmono : c.experience.fdiv 1000 ≤ (c.experience + xp).fdiv 1000 := by
    rw [Int.fdiv_eq_ediv _ (by omega), Int.fdiv_eq_ediv _ (by omega)]
    omega
  simp only [Character.gain_experience]
  by_cases hlt : c.level < 1 + (c.experience + xp).fdiv 1000
  · simp only [if_pos hlt, Character.level_up, conModifier, abilityModifier]
    refine ⟨?_, ?_, ?_, ?_⟩ <;> first | trivial | omega
  · simp only [if_neg hlt]
    refine ⟨?_, ?_, ?_, ?_⟩ <;> first | trivial | omega

/-- C4 amended witness: the default fighter gaining 2000 XP reaches
level 3 with max health and health both increased by 10. -/
theorem gain_experience_spec_witness :
    ((0:Int) ≤ 2000 ∧ charFighter.level = 1 + charFighter.experience.fdiv 1000) ∧
    ((charFighter.gain_experience 2000).experience = charFighter.experience + 2000 ∧
    (charFighter.gain_experience 2000).level
      = 1 + (charFighter.experience + 2000).fdiv 1000 ∧
    (charFighter.gain_experience 2000).max_health =
      (if charFighter.level < 1 + (charFighter.experience + 2000).fdiv 1000 then
        charFighter.max_health +
          max 1 ((1 + (charFighter.experience + 2000).fdiv 1000 - charFighter.level)
            * (5 + conModifier charFighter))
      else charFighter.max_health) ∧
    (charFighter.gain_experience 2000).health =
      (if charFighter.level < 1 + (charFighter.experience + 2000).fdiv 1000 then
        charFighter.health +
          (1 + (charFighter.experience + 2000).fdiv 1000 - charFighter.level)
            * (5 + conModifier charFighter)
      else charFighter.health)) :=
  ⟨by decide, gain_experience_spec charFighter 2000 (by decide) (by decide)⟩

/-- C9: construction with max health at the sentinel default 10
recomputes max health and health from the hit die and constitution
modifier, and armor class at the sentinel default 10 is recomputed as
10 + dexterity modifier; consequently the damaged fighter does not
survive a `to_dict`/`from_dict` round trip. -/
theorem post_init_recompute_roundtrip :
    (∀ c : Character,
      ((c.post_init).max_health =
        if c.max_health = 10 then c.calculate_starting_hp else c.max_health) ∧
      ((c.post_init).health =
        if c.max_health = 10 then c.calculate_starting_hp else c.health) ∧
      ((c.post_init).armor_class =
        if c.armor_class = 10 then 10 + abilityModifier c.dexterity
        else c.armor_class)) ∧
    Character.from_dict (Character.to_dict charDamaged) ≠ charDamaged := by
  constructor
  · intro c
    by_cases h1 : c.max_health = 10 <;> by_cases h2 : c.armor_class = 10 <;>
      simp [Character.post_init, h1, h2]
  · decide

/-- `Combatant.take_damage` preserves the strengthened consciousness
invariant for non-negative damage. -/
theorem take_damage_pres_inv (c : Combatant) (d : Int)
    (hinv : CombatantInvFull c) (hd : 0 ≤ d) :
    CombatantInvFull (c.take_damage d).1 := by
  obtain ⟨⟨hc, hm⟩, hcount, hhm, h0m⟩ := hinv
  simp only [Combatant.take_damage, CombatantInvFull, CombatantInv]
  split
  · rename_i hle
    split
    · rename_i hmem
      refine ⟨⟨?_, ?_⟩, ?_, ?_, ?_⟩ <;> simp_all <;> omega
    · rename_i hmem
      have hz : c.conditions.count "unconscious" = 0 :=
        List.count_eq_zero.mpr hmem
      refine ⟨⟨?_, ?_⟩, ?_, ?_, ?_⟩ <;>
        simp_all [List.count_append] <;> omega
  · rename_i hgt
    have hpos : 0 < c.health := by omega
    refine ⟨⟨?_, ?_⟩, ?_, ?_, ?_⟩ <;> simp_all <;> omega

/-- `Combatant.heal` preserves the strengthened consciousness invariant
for non-negative healing. -/
theorem heal_pres_inv (c : Combatant) (h : Int)
    (hinv : CombatantInvFull c) (hh : 0 ≤ h) :
    CombatantInvFull (c.heal h).1 := by
  obtain ⟨⟨hc, hm⟩, hcount, hhm, h0m⟩ := hinv
  simp only [Combatant.heal, CombatantInvFull, CombatantInv]
  split
  · rename_i hcond
    obtain ⟨hpos, hflag⟩ := hcond
    have hold : c.health ≤ 0 := by
      by_contra hgt
      have ht := hc.mpr (by omega)
      exact Bool.noConfusion (ht.symm.trans hflag)
    have hmem : "unconscious" ∈ c.conditions := hm.mpr hold
    have hcnt : c.conditions.count "unconscious" = 1 := by
      have hp := List.count_pos_iff.mpr hmem
      omega
    rw [if_pos hmem]
    have herase : (c.conditions.erase "unconscious").count "unconscious" = 0 := by
      rw [List.count_erase_self, hcnt]
    have hnotmem : "unconscious" ∉ c.conditions.erase "unconscious" :=
      List.not_mem_of_count_eq_zero herase
    dsimp only
    refine ⟨⟨?_, ?_⟩, ?_, ?_, ?_⟩
    · exact ⟨fun _ => hpos, fun _ => rfl⟩
    · constructor
      · intro hx
        exact absurd hx hnotmem
      · intro hle
        exact absurd hle (by omega)
    · rw [herase]
      omega
    · omega
    · exact h0m
  · rename_i hcond
    rcases Bool.eq_false_or_eq_true c.is_conscious with hb | hb
    · have hold : 0 < c.health := hc.mp hb
      have hpos : 0 < min c.max_health (c.health + h) := by omega
      dsimp only
      refine ⟨⟨?_, ?_⟩, hcount, ?_, h0m⟩
      · exact ⟨fun _ => hpos, fun _ => hb⟩
      · constructor
        · intro hx
          exact absurd (hm.mp hx) (by omega)
        · intro hle
          exact absurd hle (by omega)
      · omega
    · have hold : c.health ≤ 0 := by
        by_contra hgt
        have ht := hc.mpr (by omega)
        exact Bool.noConfusion (hb.symm.trans ht)
      have hnp : ¬ 0 < min c.max_health (c.health + h) := fun hp => hcond ⟨hp, hb⟩
      dsimp only
      refine ⟨⟨?_, ?_⟩, hcount, ?_, h0m⟩
      · constructor
        · intro hx
          exact Bool.noConfusion (hb.symm.trans hx)
        · intro hp
          exact absurd hp hnp
      · constructor
        · intro _
          omega
        · intro _
          exact hm.mpr hold
      · omega

/-- C10 counterexample: a combatant with the "unconscious" condition
listed twice satisfies the claimed invariant, but healing it back to
positive health removes only one occurrence (`list.remove`), leaving the
condition present while health is positive. -/
theorem combatant_heal_cex :
    CombatantInv combDup ∧ ¬ CombatantInv (combDup.heal 5).1 := by decide

/-- C10 amended: for non-negative amounts, `Combatant.take_damage` and
`Combatant.heal` preserve the consciousness/condition invariant
strengthened by "at most one unconscious entry" and the health bound
(healing an unconscious combatant to positive health wakes it and
removes its single "unconscious" condition). -/
theorem combatant_ops_pres_inv (c : Combatant) (d h : Int)
    (hinv : CombatantInvFull c) (hd : 0 ≤ d) (hh : 0 ≤ h) :
    CombatantInvFull (c.take_damage d).1 ∧ CombatantInvFull (c.heal h).1 :=
  ⟨take_damage_pres_inv c d hinv hd, heal_pres_inv c h hinv hh⟩

/-- C10 amended witness: the healthy enemy under 4 damage and 2
healing. -/
theorem combatant_ops_pres_inv_witness :
    (CombatantInvFull combW ∧ (0:Int) ≤ 4 ∧ (0:Int) ≤ 2) ∧
    (CombatantInvFull (combW.take_damage 4).1 ∧ CombatantInvFull (combW.heal 2).1) :=
  ⟨⟨by decide, by decide, by decide⟩,
   combatant_ops_pres_inv combW 4 2 (by decide) (by decide) (by decide)⟩

/-- C7: saving a session and loading the stored record into a fresh
instance with the same session identifier reproduces `turn_count`,
`current_location`, and every story event's content, event type and
metadata in the original append order. -/
theorem session_roundtrip (s : GameSession) (now created2 : String) :
    (GameSession.load_session (GameSession.init s.session_id created2)
        (s.save_session now).1).turn_count = s.turn_count ∧
    (GameSession.load_session (GameSession.init s.session_id created2)
        (s.save_session now).1).current_location = s.current_location ∧
    (GameSession.load_session (GameSession.init s.session_id created2)
        (s.save_session now).1).story_history.map
        (fun e => (e.content, e.event_type, e.metadata))
      = s.story_history.map (fun e => (e.content, e.event_type, e.metadata)) :=
  ⟨rfl, rfl, by
    simp [GameSession.load_session, GameSession.save_session, GameSession.init,
      List.map_map]⟩

/-- C6 counterexample: with `last_n = 0` the Python slice
`story_history[-0:]` is the whole history, so `get_context` renders every
event instead of the last zero events. -/
theorem get_context_cex :
    sessTwo.get_context 0
      = "Current Location: Starting Village\n\nDM: hello\nPlayer: hi" ∧
    sessTwo.get_context 0
      ≠ String.intercalate "\n" (headerLines sessTwo ++ [""] ++
          (takeLast (0:Int).toNat sessTwo.story_history).filterMap renderEventSpec) := by
  decide

/-- C6 amended: for `last_n ≥ 1` and a non-empty story history,
`get_context` is the header block (location line when the location string
is non-empty; scene when set; NPC list when non-empty; combat-status line
when in combat), a blank separator line, then the last `last_n` events in
append order rendered as RoleLabel-prefixed lines — events of the four
known kinds only, other kinds are omitted. -/
theorem get_context_spec (s : GameSession) (n : Int)
    (hn : 1 ≤ n) (hne : s.story_history ≠ []) :
    s.get_context n = String.intercalate "\n"
      (headerLines s ++ [""] ++
        (takeLast n.toNat s.story_history).filterMap renderEventSpec) := by
  have hrender : renderLine = renderEventSpec := by
    funext e
    unfold renderLine renderEventSpec roleLabel
    split_ifs <;> rfl
  have hTail : pyTail s.story_history n = takeLast n.toNat s.story_history := by
    unfold pyTail takeLast
    rw [if_pos (by omega)]
  unfold GameSession.get_context
  rw [if_neg (by simp [hne]), hTail, hrender]
  rfl

/-- C6 amended witness: the full-header session with `last_n = 1`. -/
theorem get_context_spec_witness :
    ((1:Int) ≤ 1 ∧ sessFull.story_history ≠ []) ∧
    sessFull.get_context 1 = String.intercalate "\n"
      (headerLines sessFull ++ [""] ++
        (takeLast (1:Int).toNat sessFull.story_history).filterMap renderEventSpec) :=
  ⟨⟨by decide, by decide⟩, get_context_spec sessFull 1 (by decide) (by decide)⟩

/-- Stripping the back-reference commutes with the end-of-combat sync
(the sync writes only into the referenced Character). -/
theorem strip_sync (c : Combatant) :
    stripCharacter c.sync_character = stripCharacter c := by
  unfold Combatant.sync_character stripCharacter
  split <;> rfl

/-- `end_combat` changes neither the round counter, the turn order, the
turn index, nor the roster (up to the Character back-reference sync). -/
theorem end_combat_fields (e : Encounter) :
    e.end_combat.round_number = e.round_number ∧
    e.end_combat.turn_order = e.turn_order ∧
    e.end_combat.combatants.map stripCharacter = e.combatants.map stripCharacter := by
  have hmap : ∀ l : List Combatant,
      (l.map Combatant.sync_character).map stripCharacter = l.map stripCharacter := by
    intro l
    rw [List.map_map]
    exact List.map_congr_left (fun c _ => strip_sync c)
  unfold Encounter.end_combat Encounter.log_action
  dsimp only
  split_ifs <;> exact ⟨rfl, rfl, hmap _⟩

/-- While no wrap-around occurs, `next_turn` only advances the index. -/
theorem next_turn_iterate_lt (e : Encounter) (hact : e.is_active = true)
    (hidx : e.current_turn_index = 0) :
    ∀ k, k < e.turn_order.length →
      Encounter.next_turn^[k] e = { e with current_turn_index := k } := by
  intro k
  induction k with
  | zero =>
    intro _
    rw [Function.iterate_zero_apply, ← hidx]
  | succ k ih =>
    intro hk
    rw [Function.iterate_succ_apply', ih (by omega)]
    unfold Encounter.next_turn
    rw [if_neg (by simp [hact]), if_neg (by dsimp only; omega)]

/-- C2: in an active encounter at turn index 0 with `n` combatants in the
turn order (whose consciousness flags mirror positive health), calling
`next_turn` exactly `n` times increments the round counter by exactly 1
and removes every combatant whose health reached 0 from the turn order,
while the roster is unchanged (up to the end-of-combat sync into
referenced Character records, which touches no roster field). -/
theorem next_turn_round_spec (e : Encounter) (n : Nat)
    (hact : e.is_active = true) (hidx : e.current_turn_index = 0)
    (hn : e.turn_order.length = n) (hpos : 0 < n)
    (hlink : ∀ c ∈ e.turn_order, c.is_conscious = decide (0 < c.health)) :
    (Encounter.next_turn^[n] e).round_number = e.round_number + 1 ∧
    (Encounter.next_turn^[n] e).turn_order
      = e.turn_order.filter (fun c => 0 < c.health) ∧
    (Encounter.next_turn^[n] e).combatants.map stripCharacter
      = e.combatants.map stripCharacter := by
  obtain ⟨m, rfl⟩ : ∃ m, n = m + 1 := ⟨n - 1, by omega⟩
  have hfil : e.turn_order.filter (fun c => c.is_conscious)
      = e.turn_order.filter (fun c => decide (0 < c.health)) :=
    List.filter_congr (fun c hc => by rw [hlink c hc])
  rw [Function.iterate_succ_apply',
    next_turn_iterate_lt e hact hidx m (by omega)]
  unfold Encounter.next_turn
  rw [if_neg (by simp [hact]), if_pos (by dsimp only; omega)]
  unfold Encounter.log_action
  dsimp only
  split
  · refine ⟨?_, ?_, ?_⟩
    · rw [(end_combat_fields _).1]
    · rw [(end_combat_fields _).2.1]
      exact hfil
    · rw [(end_combat_fields _).2.2]
  · exact ⟨rfl, hfil, rfl⟩

/-- C2 witness: the two-combatant encounter (one conscious player, one
downed enemy) stepped twice: the enemy leaves the turn order, the round
advances from 1 to 2, the roster keeps both combatants. -/
theorem next_turn_round_spec_witness :
    (encTwo.is_active = true ∧ encTwo.current_turn_index = 0 ∧
      encTwo.turn_order.length = 2 ∧ (0:Nat) < 2 ∧
      ∀ c ∈ encTwo.turn_order, c.is_conscious = decide (0 < c.health)) ∧
    ((Encounter.next_turn^[2] encTwo).round_number = encTwo.round_number + 1 ∧
    (Encounter.next_turn^[2] encTwo).turn_order
      = encTwo.turn_order.filter (fun c => 0 < c.health) ∧
    (Encounter.next_turn^[2] encTwo).combatants.map stripCharacter
      = encTwo.combatants.map stripCharacter) :=
  ⟨⟨by decide, by decide, by decide, by decide, by decide⟩,
   next_turn_round_spec encTwo 2 (by decide) (by decide) (by decide) (by decide)
     (by decide)⟩

/-- The initiative comparison is transitive. -/
theorem initDesc_trans (a b c : Combatant) :
    initDesc a b → initDesc b c → initDesc a c := by
  unfold initDesc
  intro h1 h2
  simp only [decide_eq_true_eq] at *
  omega

/-- The initiative comparison is total. -/
theorem initDesc_total (a b : Combatant) : initDesc a b || initDesc b a := by
  unfold initDesc
  simp only [Bool.or_eq_true, decide_eq_true_eq]
  omega

/-- C3: with one initiative roll per registered combatant, `start_combat`
succeeds on a non-empty roster and builds the turn order as a stable
descending sort by rolled initiative: the order is a permutation of the
initiative-assigned roster, sorted descending, and the combatants holding
any given initiative value appear exactly in their registration order. -/
theorem start_combat_stable_sort (e : Encounter) (rolls : List Int)
    (h1 : ¬ e.combatants.isEmpty) (h2 : rolls.length = e.combatants.length) :
    e.start_combat rolls = Except.ok (e.start_combat_ok rolls) ∧
    (e.start_combat_ok rolls).turn_order.length = e.combatants.length ∧
    (e.start_combat_ok rolls).turn_order.Perm
      (assignInitiative e.combatants rolls) ∧
    (e.start_combat_ok rolls).turn_order.Pairwise
      (fun a b => b.initiative ≤ a.initiative) ∧
    ∀ v : Int, (e.start_combat_ok rolls).turn_order.filter
        (fun c => c.initiative = v)
      = (assignInitiative e.combatants rolls).filter
        (fun c => c.initiative = v) := by
  have hto : (e.start_combat_ok rolls).turn_order
      = (assignInitiative e.combatants rolls).mergeSort initDesc := rfl
  refine ⟨by rw [Encounter.start_combat, if_neg (by simp [h1])], ?_, ?_, ?_, ?_⟩
  · rw [hto, List.length_mergeSort]
    unfold assignInitiative
    rw [List.length_zipWith]
    omega
  · rw [hto]
    exact List.mergeSort_perm _ initDesc
  · rw [hto]
    refine List.Pairwise.imp ?_
      (List.sorted_mergeSort initDesc_trans initDesc_total
        (assignInitiative e.combatants rolls))
    intro a b hab
    simpa [initDesc] using hab
  · intro v
    rw [hto]
    set cs := assignInitiative e.combatants rolls with hcs
    set p := fun c : Combatant => decide (c.initiative = v) with hp
    have hmemv : ∀ a ∈ cs.filter p, a.initiative = v := by
      intro a ha
      have := (List.mem_filter.mp ha).2
      rw [hp] at this
      exact of_decide_eq_true this
    have hpw : (cs.filter p).Pairwise (fun a b => initDesc a b = true) := by
      refine List.pairwise_of_forall_mem_list ?_
      intro a ha b hb
      unfold initDesc
      rw [hmemv a ha, hmemv b hb]
      simp
    have hsub : List.Sublist (cs.filter p) (cs.mergeSort initDesc) :=
      List.sublist_mergeSort initDesc_trans initDesc_total hpw
        (List.filter_sublist cs)
    have hff : (cs.filter p).filter p = cs.filter p :=
      List.filter_eq_self.mpr (fun a ha => (List.mem_filter.mp ha).2)
    have hsub2 : List.Sublist (cs.filter p) ((cs.mergeSort initDesc).filter p) := by
      have hx := hsub.filter p
      rwa [hff] at hx
    have hlen : (cs.filter p).length = ((cs.mergeSort initDesc).filter p).length :=
      ((List.mergeSort_perm cs initDesc).filter p).length_eq.symm
    exact (hsub2.eq_of_length hlen).symm

/-- C3 witness: three combatants rolling 10, 15, 10 — the two enemies
tied at 10 stay in registration order behind the 15. -/
theorem start_combat_stable_sort_witness :
    (¬ encThree.combatants.isEmpty ∧
      ([10, 15, 10] : List Int).length = encThree.combatants.length) ∧
    encThree.start_combat [10, 15, 10]
      = Except.ok (encThree.start_combat_ok [10, 15, 10]) ∧
    (encThree.start_combat_ok [10, 15, 10]).turn_order.filter
        (fun c => c.initiative = 10)
      = (assignInitiative encThree.combatants [10, 15, 10]).filter
        (fun c => c.initiative = 10) :=
  ⟨⟨by decide, by decide⟩,
   (start_combat_stable_sort encThree [10, 15, 10] (by decide) (by decide)).1,
   (start_combat_stable_sort encThree [10, 15, 10] (by decide) (by decide)).2.2.2.2 10⟩

/-- The executable matcher accepts exactly the language of the dice
regular expression. -/
theorem parseDice_isSome_iff (cs : List Char) :
    (parseDice cs).isSome ↔ MatchesDiceGrammar cs := by
  have hd : ('d' : Char).isDigit = false := by decide
  constructor
  · intro h
    unfold parseDice at h
    by_cases ha : (cs.takeWhile Char.isDigit).isEmpty
    · simp [ha] at h
    · rw [if_neg ha] at h
      have hane : cs.takeWhile Char.isDigit ≠ [] := by
        simpa [List.isEmpty_iff] using ha
      have hcs : cs = cs.takeWhile Char.isDigit ++ cs.dropWhile Char.isDigit :=
        (List.takeWhile_append_dropWhile Char.isDigit cs).symm
      cases hr1 : cs.dropWhile Char.isDigit with
      | nil =>
        rw [hr1] at h
        simp at h
      | cons c0 r2 =>
        rw [hr1] at h
        dsimp only at h
        by_cases hc0 : c0 = 'd'
        · subst hc0
          rw [if_pos rfl] at h
          by_cases hb : (r2.takeWhile Char.isDigit).isEmpty
          · simp [hb] at h
          · rw [if_neg hb] at h
            have hbne : r2.takeWhile Char.isDigit ≠ [] := by
              simpa [List.isEmpty_iff] using hb
            have hr2 : r2 = r2.takeWhile Char.isDigit ++ r2.dropWhile Char.isDigit :=
              (List.takeWhile_append_dropWhile Char.isDigit r2).symm
            cases hr3 : r2.dropWhile Char.isDigit with
            | nil =>
              refine ⟨cs.takeWhile Char.isDigit, r2.takeWhile Char.isDigit,
                ⟨hane, fun c hc => List.mem_takeWhile_imp hc⟩,
                ⟨hbne, fun c hc => List.mem_takeWhile_imp hc⟩, Or.inl ?_⟩
              conv_lhs => rw [hcs, hr1]
              rw [hr3, List.append_nil] at hr2
              rw [← hr2]
            | cons c r4 =>
              rw [hr3] at h
              dsimp only at h
              by_cases hpm : c = '+' ∨ c = '-'
              · rw [if_pos hpm] at h
                by_cases hm5 : (r4.takeWhile Char.isDigit).isEmpty
                    ∨ ¬ (r4.dropWhile Char.isDigit).isEmpty
                · simp only [if_pos hm5, Option.isSome_none] at h
                  cases h
                · push_neg at hm5
                  obtain ⟨hm, hr5⟩ := hm5
                  have hmne : r4.takeWhile Char.isDigit ≠ [] := by
                    simpa [List.isEmpty_iff] using hm
                  have hr5nil : r4.dropWhile Char.isDigit = [] := by
                    simpa [List.isEmpty_iff] using hr5
                  have hr4 : r4 = r4.takeWhile Char.isDigit := by
                    conv_lhs => rw [(List.takeWhile_append_dropWhile
                      Char.isDigit r4).symm]
                    rw [hr5nil, List.append_nil]
                  refine ⟨cs.takeWhile Char.isDigit, r2.takeWhile Char.isDigit,
                    ⟨hane, fun x hx => List.mem_takeWhile_imp hx⟩,
                    ⟨hbne, fun x hx => List.mem_takeWhile_imp hx⟩,
                    Or.inr ⟨c, r4.takeWhile Char.isDigit, hpm,
                      ⟨hmne, fun x hx => List.mem_takeWhile_imp hx⟩, ?_⟩⟩
                  conv_lhs => rw [hcs, hr1, hr2, hr3]
                  rw [← hr4]
                  simp
              · rw [if_neg hpm] at h
                cases h
        · rw [if_neg hc0] at h
          cases h
  · rintro ⟨a, b, ⟨hane, had⟩, ⟨hbne, hbd⟩, hcase | ⟨c, m, hc, ⟨hmne, hmd⟩, hcs⟩⟩
    · subst hcase
      have h1 : List.takeWhile Char.isDigit (a ++ 'd' :: b) = a := by
        rw [List.takeWhile_append_of_pos had, List.takeWhile_cons, hd]
        simp
      have h2 : List.dropWhile Char.isDigit (a ++ 'd' :: b) = 'd' :: b := by
        rw [List.dropWhile_append_of_pos had, List.dropWhile_cons]
        simp [hd]
      unfold parseDice
      rw [h1, h2]
      dsimp only
      rw [if_neg (by simpa [List.isEmpty_iff] using hane), if_pos rfl,
        List.takeWhile_eq_self_iff.mpr hbd,
        List.dropWhile_eq_nil_iff.mpr hbd,
        if_neg (by simpa [List.isEmpty_iff] using hbne)]
      rfl
    · subst hcs
      have hcd : Char.isDigit c = false := by
        rcases hc with h | h <;> subst h <;> decide
      have hsplit : a ++ 'd' :: b ++ c :: m = a ++ 'd' :: (b ++ c :: m) := by
        simp
      have h1 : List.takeWhile Char.isDigit (a ++ 'd' :: (b ++ c :: m)) = a := by
        rw [List.takeWhile_append_of_pos had, List.takeWhile_cons, hd]
        simp
      have h2 : List.dropWhile Char.isDigit (a ++ 'd' :: (b ++ c :: m))
          = 'd' :: (b ++ c :: m) := by
        rw [List.dropWhile_append_of_pos had, List.dropWhile_cons]
        simp [hd]
      have h3 : List.takeWhile Char.isDigit (b ++ c :: m) = b := by
        rw [List.takeWhile_append_of_pos hbd, List.takeWhile_cons, hcd]
        simp
      have h4 : List.dropWhile Char.isDigit (b ++ c :: m) = c :: m := by
        rw [List.dropWhile_append_of_pos hbd, List.dropWhile_cons]
        simp [hcd]
      unfold parseDice
      rw [hsplit, h1, h2]
      dsimp only
      rw [if_neg (by simpa [List.isEmpty_iff] using hane), if_pos rfl, h3, h4]
      dsimp only
      rw [if_neg (by simpa [List.isEmpty_iff] using hbne), if_pos hc,
        List.takeWhile_eq_self_iff.mpr hmd,
        List.dropWhile_eq_nil_iff.mpr hmd,
        if_neg (by simp [List.isEmpty_iff, hmne])]
      rfl

/-- C5 counterexample: the error for a rejected input carries the
normalized (stripped, lowercased, space-removed) string, not the original
one; and the grammar match "0d6" does not roll but raises the positivity
`ValueError` instead. -/
theorem parse_and_roll_cex :
    DiceRoller.parse_and_roll " 1D20x" stream4
      = Except.error (DiceError.invalidFormat "1d20x") ∧
    "1d20x" ≠ " 1D20x" ∧
    parseDice (normalizeDice "0d6") = some (0, 6, 0) ∧
    DiceRoller.parse_and_roll "0d6" stream4
      = Except.error DiceError.invalidDice :=
  ⟨rfl, by decide, rfl, rfl⟩

/-- C5 amended: `parse_and_roll` accepts exactly the case-insensitive,
whitespace-stripped grammar applied to the normalized input; a
grammar-matching notation rolls the described dice when count and sides
are ≥ 1 and raises the positivity `ValueError` when count or sides is 0;
every non-matching input fails with the invalid-format `ValueError`
carrying the normalized input string. -/
theorem parse_and_roll_spec (s : String) (stream : Nat → Nat) :
    ((parseDice (normalizeDice s)).isSome ↔ MatchesDiceGrammar (normalizeDice s)) ∧
    (parseDice (normalizeDice s) = none →
      DiceRoller.parse_and_roll s stream
        = Except.error (DiceError.invalidFormat (String.mk (normalizeDice s)))) ∧
    (∀ cnt sds md, parseDice (normalizeDice s) = some (cnt, sds, md) →
      DiceRoller.parse_and_roll s stream = DiceRoller.roll sds cnt md stream ∧
      ((1 ≤ cnt ∧ 1 ≤ sds) → ∃ r : RollResult,
        DiceRoller.parse_and_roll s stream = Except.ok r ∧
        r.count = cnt ∧ r.sides = sds ∧ r.modifier = md ∧
        r.rolls.length = cnt) ∧
      ((cnt = 0 ∨ sds = 0) →
        DiceRoller.parse_and_roll s stream = Except.error DiceError.invalidDice)) := by
  refine ⟨parseDice_isSome_iff _, ?_, ?_⟩
  · intro hnone
    unfold DiceRoller.parse_and_roll
    dsimp only
    rw [hnone]
  · intro cnt sds md hsome
    unfold DiceRoller.parse_and_roll
    dsimp only
    rw [hsome]
    dsimp only
    refine ⟨rfl, ?_, ?_⟩
    · rintro ⟨h1, h2⟩
      unfold DiceRoller.roll
      rw [if_neg (by omega)]
      exact ⟨_, rfl, rfl, rfl, rfl, by simp⟩
    · intro h0
      unfold DiceRoller.roll
      rw [if_pos (by omega)]

/-- C5 amended witness: the notation with spaces and an upper-case D
normalizes to 2d6+3 and is rolled as such. -/
theorem parse_and_roll_spec_witness :
    parseDice (normalizeDice " 2D6 + 3 ") = some (2, 6, 3) ∧
    DiceRoller.parse_and_roll " 2D6 + 3 " stream4
      = DiceRoller.roll 6 2 3 stream4 :=
  ⟨rfl, ((parse_and_roll_spec " 2D6 + 3 " stream4).2.2 2 6 3 rfl).1⟩
